import Mathlib

/-!
Verification model of the banking API gateway's admission-and-forwarding
pipeline (rate limiter, circuit breaker, reverse-proxy forwarding).

Go strings are embedded as lists of characters.  Durations are embedded
as whole seconds (the source always works at second granularity: Redis
EXPIRE/TTL use seconds, and retry-after values are truncated to seconds).
Machine integers (Go int64) are embedded as Int; the counters involved
stay far below any overflow boundary in every scenario considered.
-/

/-- Embedding of a Go string as a list of characters. -/
def gs (s : String) : List Char := s.data

namespace Gateway

/-! ## Rate limiter (src/internal/middleware/ratelimit.go) -/

/-- `RateLimitConfig` from ratelimit.go: `Limit int64`, `Window time.Duration`
(embedded in whole seconds). -/
structure RateLimitConfig where
  limit : Int
  window : Nat
deriving Repr, DecidableEq

/-- The auth limit constructed in `NewRateLimiter`: 5 per minute. -/
def authLimit : RateLimitConfig := ⟨5, 60⟩

/-- The transfer limit constructed in `NewRateLimiter`: 100 per hour. -/
def transferLimit : RateLimitConfig := ⟨100, 3600⟩

/-- The default limit constructed in `NewRateLimiter`: 1000 per hour. -/
def defaultLimit : RateLimitConfig := ⟨1000, 3600⟩

/-- Outcome of one `checkLimit` call in ratelimit.go.
`failOpen`: the Redis increment errored, the request proceeds with no
rate-limit headers.  `allow r`: the request proceeds and the
X-RateLimit-Remaining header carries `r`.  `deny r ra`: a 429 response
is produced, with X-RateLimit-Remaining `r` and Retry-After `ra`. -/
inductive CheckDecision where
  | failOpen
  | allow (remaining : Int)
  | deny (remaining : Int) (retryAfter : Int)
deriving Repr, DecidableEq

/-- `checkLimit` from ratelimit.go, as a function of the two store calls it
makes: `incrResult` is the value returned by `IncrementWithExpiry`
(`none` when that call errors), `ttlSeconds` is the truncated-to-seconds
value of the `TTL` call (only consulted on the deny path; on a TTL error
the Go code discards the error and is left with the zero duration, 0). -/
def checkLimit (cfg : RateLimitConfig) (incrResult : Option Int)
    (ttlSeconds : Int) : CheckDecision :=
  match incrResult with
  | none => CheckDecision.failOpen
  | some count =>
    let remaining := max 0 (cfg.limit - count)
    if cfg.limit < count then
      let retryAfter := if ttlSeconds ≤ 0 then (cfg.window : Int) else ttlSeconds
      CheckDecision.deny remaining retryAfter
    else
      CheckDecision.allow remaining

/-! ## Counting store (src/internal/infrastructure/redis.go)

`IncrementWithExpiry` runs an atomic Redis script: INCR the key, and if
the result is 1, EXPIRE it to the window.  We embed the live keyspace as
a map from key to (count, absolute expiry time); a key whose expiry time
has been reached behaves as absent, which is exactly Redis's fixed-window
semantics as used by the script. -/

/-- The live Redis keyspace: each key maps to its count and the absolute
time at which it expires. -/
def CounterStore := List Char → Option (Int × Nat)

/-- The keyspace with no counters. -/
def emptyStore : CounterStore := fun _ => none

/-- Point update of the keyspace. -/
def storeSet (s : CounterStore) (key : List Char) (v : Int × Nat) :
    CounterStore :=
  fun k => if k = key then some v else s k

/-- `IncrementWithExpiry` from redis.go at time `now`: INCR the key
(an absent or expired key restarts at 1) and set the expiry to
`now + window` only when the increment created the counter.  The Go code
coerces a sub-second window to one second (`if seconds == 0 { seconds = 1 }`). -/
def incrementWithExpiry (s : CounterStore) (key : List Char)
    (window now : Nat) : Int × CounterStore :=
  let w := if window = 0 then 1 else window
  match s key with
  | some (c, exp) =>
    if now < exp then (c + 1, storeSet s key (c + 1, exp))
    else (1, storeSet s key (1, now + w))
  | none => (1, storeSet s key (1, now + w))

/-- `TTL` from redis.go at time `now`, in whole seconds: the remaining
life of a live key, and Redis's -2 for a missing (or expired) key. -/
def ttlLookup (s : CounterStore) (key : List Char) (now : Nat) : Int :=
  match s key with
  | some (_, exp) => if now < exp then (exp : Int) - (now : Int) else -2
  | none => -2

/-- One request through `checkLimit` against the live store at time `now`:
increment first, then decide, consulting the TTL of the updated store. -/
def processRequest (cfg : RateLimitConfig) (key : List Char)
    (s : CounterStore) (now : Nat) : CheckDecision × CounterStore :=
  let r := incrementWithExpiry s key cfg.window now
  (checkLimit cfg (some r.1) (ttlLookup r.2 key now), r.2)

/-- A sequence of requests with the same key, at the given times. -/
def runSeq (cfg : RateLimitConfig) (key : List Char) (s : CounterStore) :
    List Nat → List CheckDecision × CounterStore
  | [] => ([], s)
  | t :: ts =>
    let r := processRequest cfg key s t
    let rest := runSeq cfg key r.2 ts
    (r.1 :: rest.1, rest.2)

/-! ## Circuit breaker

The breaker state machine itself lives in the third-party gobreaker
dependency, which is not part of this repository; only its configuration
(`createCircuitBreaker` in the proxy handler: probe cap 5, rolling
interval 10s, cool-down 30s, trip after 5 consecutive failures) and its
call sites are.  The machine below is therefore modelled from the spec:
the Closed/Open/HalfOpen state machine of section 4.2, instantiated with
the source's settings. -/

/-- Breaker status: Closed, Open, or HalfOpen. -/
inductive BState where
  | closed
  | opn
  | halfOpen
deriving Repr, DecidableEq

/-- Modelled from the spec: the per-service breaker state.
`consecFailures` and `consecSuccesses` are the consecutive outcome
counters, `requests` counts the attempts admitted in the current
generation (the half-open probe slots), `openedAt` is the time the
breaker last entered Open, and `intervalStart` is the start of the
current rolling interval in Closed. -/
structure Breaker where
  state : BState
  consecFailures : Nat
  consecSuccesses : Nat
  requests : Nat
  openedAt : Nat
  intervalStart : Nat
deriving Repr, DecidableEq

/-- Trip threshold from `createCircuitBreaker`: ReadyToTrip fires at 5
consecutive failures. -/
def failureThreshold : Nat := 5

/-- Probe cap from `createCircuitBreaker`: MaxRequests = 5 in HalfOpen. -/
def probeLimit : Nat := 5

/-- Cool-down from `createCircuitBreaker`: Timeout = 30 seconds in Open. -/
def cooldown : Nat := 30

/-- Rolling interval from `createCircuitBreaker`: Interval = 10 seconds
between failure-count resets while Closed. -/
def interval : Nat := 10

/-- A breaker freshly transitioned to Open at time `now`. -/
def toOpen (now : Nat) : Breaker :=
  ⟨BState.opn, 0, 0, 0, now, now⟩

/-- A breaker freshly transitioned to HalfOpen (counters cleared, probe
slots empty). -/
def toHalfOpen (b : Breaker) : Breaker :=
  { b with state := BState.halfOpen, consecFailures := 0,
           consecSuccesses := 0, requests := 0 }

/-- A breaker freshly transitioned to Closed at time `now`. -/
def toClosed (now : Nat) : Breaker :=
  ⟨BState.closed, 0, 0, 0, 0, now⟩

/-- Modelled from the spec: time-driven transitions observed before any
attempt or report.  While Closed, the rolling interval resets the
consecutive counters; while Open, an elapsed cool-down moves the breaker
to HalfOpen. -/
def resolveTime (b : Breaker) (now : Nat) : Breaker :=
  match b.state with
  | BState.closed =>
    if b.intervalStart + interval < now then
      { b with consecFailures := 0, consecSuccesses := 0, requests := 0,
               intervalStart := now }
    else b
  | BState.opn =>
    if b.openedAt + cooldown < now then toHalfOpen b else b
  | BState.halfOpen => b

/-- Modelled from the spec: `Attempt(service)` at time `now`.  Returns
the updated breaker and whether the attempt is Permitted.  Closed always
permits; Open always rejects (until the cool-down moves it to HalfOpen);
HalfOpen permits only while fewer than `probeLimit` probes have been
admitted in this generation. -/
def attempt (b : Breaker) (now : Nat) : Breaker × Bool :=
  let b1 := resolveTime b now
  match b1.state with
  | BState.closed => ({ b1 with requests := b1.requests + 1 }, true)
  | BState.opn => (b1, false)
  | BState.halfOpen =>
    if probeLimit ≤ b1.requests then (b1, false)
    else ({ b1 with requests := b1.requests + 1 }, true)

/-- Modelled from the spec: `Report(service, success)` at time `now`.
In Closed, a success zeroes the consecutive-failure count and a failure
increments it, tripping to Open at the threshold.  In HalfOpen, any
failure returns to Open with a fresh cool-down, and reaching `probeLimit`
consecutive successes closes the breaker. -/
def report (b : Breaker) (now : Nat) (success : Bool) : Breaker :=
  let b1 := resolveTime b now
  match b1.state, success with
  | BState.closed, true =>
    { b1 with consecSuccesses := b1.consecSuccesses + 1, consecFailures := 0 }
  | BState.closed, false =>
    if failureThreshold ≤ b1.consecFailures + 1 then toOpen now
    else { b1 with consecFailures := b1.consecFailures + 1 }
  | BState.opn, _ => b1
  | BState.halfOpen, true =>
    if probeLimit ≤ b1.consecSuccesses + 1 then toClosed now
    else { b1 with consecSuccesses := b1.consecSuccesses + 1,
                   consecFailures := 0 }
  | BState.halfOpen, false => toOpen now

/-- `n` failure reports in a row, all at time `now`. -/
def reportFailures (b : Breaker) (now : Nat) : Nat → Breaker
  | 0 => b
  | n + 1 => reportFailures (report b now false) now n

/-- `n` success reports in a row, all at time `now`. -/
def reportSuccesses (b : Breaker) (now : Nat) : Nat → Breaker
  | 0 => b
  | n + 1 => reportSuccesses (report b now true) now n

/-! ## Forwarding stage (proxy handler: Handle / doProxy) -/

/-- The outcome of the outbound call made by `doProxy`: either the backend
answered with some HTTP status (any status — the reverse proxy relays it
and the error handler is never invoked), or the transport failed and the
reverse proxy's ErrorHandler ran with the given error text. -/
inductive ProxyOutcome where
  | backendResponse (status : Nat)
  | transportFailure (msg : List Char)
deriving Repr, DecidableEq

/-- The `proxyErr` value `doProxy` returns: it is set only by the reverse
proxy's ErrorHandler, i.e. only on a transport-level failure. -/
def doProxyErr : ProxyOutcome → Option (List Char)
  | ProxyOutcome.backendResponse _ => none
  | ProxyOutcome.transportFailure msg => some msg

/-- What `cb.Execute` records for the attempt: gobreaker's default
success predicate is that the wrapped call returned a nil error, and the
wrapped call returns exactly `doProxy`'s `proxyErr`. -/
def reportedSuccess (o : ProxyOutcome) : Bool :=
  (doProxyErr o).isNone

/-- Response bodies the pipeline can produce. `backend` stands for
whatever body the backend answered with (relayed untouched). -/
inductive Body where
  | backend
  | jsonError (error : List Char)
  | jsonErrorService (error service : List Char)
  | jsonRateLimited (error : List Char) (retryAfter : Int)
deriving Repr, DecidableEq

/-- An HTTP response as seen by the caller. -/
structure HttpResponse where
  status : Nat
  body : Body
deriving Repr, DecidableEq

/-- The response `doProxy` leaves on the wire: the backend's own response
when the transport succeeded, and otherwise the ErrorHandler's write —
status 502 (http.StatusBadGateway) with the constant JSON body whose
error field is the fixed text Service Unavailable, independent of the
underlying error. -/
def doProxyResponse : ProxyOutcome → HttpResponse
  | ProxyOutcome.backendResponse s => ⟨s, Body.backend⟩
  | ProxyOutcome.transportFailure _ =>
    ⟨502, Body.jsonError (gs "Service Unavailable")⟩

/-- `strings.HasPrefix`. -/
def hasPref (s p : List Char) : Bool := p.isPrefixOf s

/-- `strings.TrimPrefix`. -/
def trimPref (s p : List Char) : List Char :=
  if p.isPrefixOf s then s.drop p.length else s

/-- The path rewrite in `doProxy`'s Director: strip the fixed /api
routing prefix; if the result is empty or not absolute, prepend a single
separator. -/
def rewritePath (p : List Char) : List Char :=
  if (trimPref p (gs "/api")).isEmpty || !hasPref (trimPref p (gs "/api")) (gs "/")
  then gs "/" ++ trimPref p (gs "/api")
  else trimPref p (gs "/api")

/-! ## Admission pipeline (server.setupRoutes, middleware, proxy.Handle)

One inbound request is embedded as an environment of the externally
determined facts about it: what the auth header looks like, what the
token-verification and blacklist collaborators answer, what the counting
store answers for this request's increment and TTL calls, and how the
outbound call turns out if one is made. -/

/-- The externally determined facts about one inbound request. -/
structure Env where
  hasAuthHeader : Bool
  authFormatOk : Bool
  blacklisted : Bool
  tokenValid : Bool
  incr : Option Int
  ttl : Int
  proxyOutcome : ProxyOutcome
  now : Nat
deriving Repr, DecidableEq

/-- The observable result of running a request through a route's chain:
the response, the rate-limit response metadata, and which effects
happened (store increment executed, blacklist consulted, outbound
backend call made, outcome reported to the breaker). -/
structure PipeResult where
  response : HttpResponse
  xRateHeadersSet : Bool
  limitHeader : Int
  remainingHeader : Int
  retryAfterHeader : Option Int
  storeConsulted : Bool
  blacklistChecked : Bool
  backendCalled : Bool
  breaker : Breaker
  reported : Option Bool
deriving Repr, DecidableEq

/-- A result that short-circuits with response `r`, leaving the breaker
untouched and recording no effects. -/
def baseResult (r : HttpResponse) (b : Breaker) : PipeResult :=
  ⟨r, false, 0, 0, none, false, false, false, b, none⟩

/-- `ValidateToken` from auth.go: reject a missing or malformed
Authorization header; when the Redis client is present, consult the
blacklist (an errored lookup yields not-blacklisted and proceeds) and
reject revoked tokens; reject invalid tokens; otherwise run `next`. -/
def validateToken (redisPresent : Bool) (next : Env → Breaker → PipeResult)
    (env : Env) (b : Breaker) : PipeResult :=
  if env.hasAuthHeader = false then
    baseResult ⟨401, Body.jsonError (gs "Missing authorization header")⟩ b
  else if env.authFormatOk = false then
    baseResult ⟨401, Body.jsonError (gs "Invalid authorization format")⟩ b
  else if redisPresent && env.blacklisted then
    { baseResult ⟨401, Body.jsonError (gs "Token has been revoked")⟩ b with
      blacklistChecked := true }
  else if env.tokenValid = false then
    { baseResult ⟨401, Body.jsonError (gs "Invalid token")⟩ b with
      blacklistChecked := redisPresent }
  else
    { next env b with blacklistChecked := redisPresent }

/-- How `checkLimit`'s decision plays out in ratelimit.go: fail-open runs
the wrapped handler with no headers; allow sets the X-RateLimit headers
and runs the wrapped handler; deny sets the headers, the Retry-After
header, and answers 429 with the JSON error body without running the
wrapped handler. -/
def applyDecision (cfg : RateLimitConfig) (d : CheckDecision) (b : Breaker)
    (next : PipeResult) : PipeResult :=
  match d with
  | CheckDecision.failOpen => { next with storeConsulted := true }
  | CheckDecision.allow r =>
    { next with storeConsulted := true, xRateHeadersSet := true,
                limitHeader := cfg.limit, remainingHeader := r }
  | CheckDecision.deny r ra =>
    { baseResult ⟨429, Body.jsonRateLimited (gs "Rate limit exceeded") ra⟩ b with
      storeConsulted := true, xRateHeadersSet := true,
      limitHeader := cfg.limit, remainingHeader := r,
      retryAfterHeader := some ra }

/-- The rate-limiting middleware body (`checkLimit` plus its effect on
the response), as a stage over the wrapped handler's result. -/
def rateLimitStage (cfg : RateLimitConfig) (incrResult : Option Int)
    (ttlSeconds : Int) (b : Breaker) (next : PipeResult) : PipeResult :=
  applyDecision cfg (checkLimit cfg incrResult ttlSeconds) b next

/-- `Handle` from the proxy handler: an unconfigured service answers 503
at once; an unparsable target URL answers 500; with a breaker, the
attempt is taken through it — a rejected attempt answers 503 with the
service name, a permitted one runs `doProxy` and reports the outcome;
without a breaker, `doProxy` runs directly. -/
def handle (svcConfigured urlValid breakerEnabled : Bool)
    (service : List Char) (env : Env) (b : Breaker) : PipeResult :=
  if svcConfigured = false then
    baseResult ⟨503, Body.jsonError (gs "Service not configured")⟩ b
  else if urlValid = false then
    baseResult ⟨500, Body.jsonError (gs "Configuration error")⟩ b
  else if breakerEnabled then
    let a := attempt b env.now
    if a.2 = false then
      baseResult
        ⟨503, Body.jsonErrorService (gs "Service temporarily unavailable") service⟩
        a.1
    else
      let succ := reportedSuccess env.proxyOutcome
      { baseResult (doProxyResponse env.proxyOutcome) (report a.1 env.now succ) with
        backendCalled := true, reported := some succ }
  else
    { baseResult (doProxyResponse env.proxyOutcome) b with
      backendCalled := true }

/-- The /api/auth route group from `setupRoutes`: IP-scoped rate limiting
(installed only when the Redis client is present) in front of the
auth-service proxy; no token validation. -/
def authChain (redisPresent svcConfigured urlValid breakerEnabled : Bool)
    (env : Env) (b : Breaker) : PipeResult :=
  let next := handle svcConfigured urlValid breakerEnabled
    (gs "auth-service") env b
  if redisPresent then rateLimitStage authLimit env.incr env.ttl b next
  else next

/-- A protected route group from `setupRoutes` (transfers with the
transfer limit, or users/reporting/aml with the default limit): token
validation, then rate limiting (installed only when the Redis client is
present), then the breaker-gated proxy. -/
def protectedChain (redisPresent svcConfigured urlValid breakerEnabled : Bool)
    (cfg : RateLimitConfig) (service : List Char)
    (env : Env) (b : Breaker) : PipeResult :=
  validateToken redisPresent
    (fun env b =>
      let next := handle svcConfigured urlValid breakerEnabled service env b
      if redisPresent then rateLimitStage cfg env.incr env.ttl b next
      else next)
    env b

/-- The transfers route group: transfer limit, transaction-service. -/
def transfersChain (redisPresent svcConfigured urlValid breakerEnabled : Bool)
    (env : Env) (b : Breaker) : PipeResult :=
  protectedChain redisPresent svcConfigured urlValid breakerEnabled
    transferLimit (gs "transaction-service") env b

/-- `main` from the entry point: when the Redis connection fails at
startup the client is set to nil, so the server is built with no Redis
client for the lifetime of the process. -/
def redisPresentAfterStartup (connectOk : Bool) : Bool := connectOk

/-! ## Theorems -/

/-- Every output of the path rewrite starts with a separator. -/
lemma rewritePath_starts_with_sep (p : List Char) :
    hasPref (rewritePath p) (gs "/") = true := by
  unfold rewritePath
  split
  · simp [hasPref, gs, List.isPrefixOf]
  · rename_i h
    cases hb : hasPref (trimPref p (gs "/api")) (gs "/") with
    | true => rfl
    | false => exact absurd (by simp [hb]) h

/-- C2: if the counting store's increment errors, `checkLimit` fails open —
the decision is `failOpen` and the middleware runs the wrapped handler,
returning its result unchanged (no rate-limit headers, no 429),
independently of the policy, the TTL answer, and any prior traffic. -/
theorem checkLimit_store_error_fails_open (cfg : RateLimitConfig)
    (ttl : Int) (b : Breaker) (next : PipeResult) :
    checkLimit cfg none ttl = CheckDecision.failOpen ∧
    rateLimitStage cfg none ttl b next = { next with storeConsulted := true } := by
  exact ⟨rfl, rfl⟩

/-- C9: on every deny, the middleware answers 429 with the JSON
rate-limited body carrying the retry-after value, the Retry-After header
equal to that value, and the value is the store's TTL when that TTL is
positive and the full window length otherwise. -/
theorem ratelimit_deny_response (cfg : RateLimitConfig) (count ttl : Int)
    (b : Breaker) (next : PipeResult) (h : cfg.limit < count) :
    rateLimitStage cfg (some count) ttl b next =
      { baseResult
          ⟨429, Body.jsonRateLimited (gs "Rate limit exceeded")
              (if ttl ≤ 0 then (cfg.window : Int) else ttl)⟩ b with
        storeConsulted := true, xRateHeadersSet := true,
        limitHeader := cfg.limit,
        remainingHeader := max 0 (cfg.limit - count),
        retryAfterHeader := some (if ttl ≤ 0 then (cfg.window : Int) else ttl) } ∧
    (0 < ttl → (if ttl ≤ 0 then (cfg.window : Int) else ttl) = ttl) ∧
    (ttl ≤ 0 → (if ttl ≤ 0 then (cfg.window : Int) else ttl) = (cfg.window : Int)) := by
  refine ⟨?_, fun hp => by simp [Int.not_le.mpr hp], fun hn => by simp [hn]⟩
  unfold rateLimitStage checkLimit applyDecision
  simp [h]

/-- Witness for `ratelimit_deny_response` at the auth policy, count 6,
TTL 17. -/
theorem ratelimit_deny_response_witness :
    authLimit.limit < 6 ∧
    rateLimitStage authLimit (some 6) 17 (toClosed 0)
        (baseResult ⟨200, Body.backend⟩ (toClosed 0)) =
      { baseResult
          ⟨429, Body.jsonRateLimited (gs "Rate limit exceeded")
              (if (17 : Int) ≤ 0 then (authLimit.window : Int) else 17)⟩
          (toClosed 0) with
        storeConsulted := true, xRateHeadersSet := true,
        limitHeader := authLimit.limit,
        remainingHeader := max 0 (authLimit.limit - 6),
        retryAfterHeader :=
          some (if (17 : Int) ≤ 0 then (authLimit.window : Int) else 17) } :=
  ⟨by decide,
    (ratelimit_deny_response authLimit 6 17 (toClosed 0)
      (baseResult ⟨200, Body.backend⟩ (toClosed 0)) (by decide)).1⟩

/-- C8 counterexample: the rewrite is not idempotent (applying it twice to
/api/api/x drops one more prefix than applying it once), and an output can
begin with two separators (/api//x rewrites to //x). -/
theorem rewritePath_claim_counterexample :
    rewritePath (rewritePath (gs "/api/api/x")) ≠ rewritePath (gs "/api/api/x") ∧
    rewritePath (gs "/api//x") = gs "//x" ∧
    hasPref (rewritePath (gs "/api//x")) (gs "//") = true := by
  refine ⟨by decide, by decide, by decide⟩

/-- C8 amended: the rewrite is a pure function of the path; every output
begins with at least one separator; and applying it twice equals applying
it once for every input whose rewritten form does not itself begin with
the /api routing prefix. -/
theorem rewritePath_amended (p : List Char) :
    hasPref (rewritePath p) (gs "/") = true ∧
    (hasPref (rewritePath p) (gs "/api") = false →
      rewritePath (rewritePath p) = rewritePath p) := by
  refine ⟨rewritePath_starts_with_sep p, fun hna => ?_⟩
  have hs := rewritePath_starts_with_sep p
  have htrim : trimPref (rewritePath p) (gs "/api") = rewritePath p := by
    unfold trimPref
    unfold hasPref at hna
    simp [hna]
  have hne : (rewritePath p).isEmpty = false := by
    cases hrw : rewritePath p with
    | nil => rw [hrw] at hs; simp [hasPref, gs, List.isPrefixOf] at hs
    | cons c l => simp
  conv_lhs => rw [rewritePath]
  rw [htrim, hne, hs]
  simp

/-- Witness for `rewritePath_amended` at /x (whose rewritten form /x does
not begin with /api). -/
theorem rewritePath_amended_witness :
    hasPref (rewritePath (gs "/x")) (gs "/") = true ∧
    rewritePath (rewritePath (gs "/x")) = rewritePath (gs "/x") :=
  ⟨(rewritePath_amended (gs "/x")).1,
    (rewritePath_amended (gs "/x")).2 (by decide)⟩

/-- A concrete request whose outbound call fails at the transport level. -/
def envTransportFail : Env :=
  ⟨true, true, false, true, some 1, 10,
    ProxyOutcome.transportFailure (gs "connection refused"), 0⟩

/-- C6 counterexample: a transport-level failure behind the breaker is
answered with status 502 (the reverse proxy ErrorHandler writes
http.StatusBadGateway), not 503, and its body is the generic JSON error
without the logical service name. -/
theorem transport_failure_counterexample :
    (handle true true true (gs "transaction-service") envTransportFail
        (toClosed 0)).backendCalled = true ∧
    (handle true true true (gs "transaction-service") envTransportFail
        (toClosed 0)).response.status = 502 ∧
    ¬ (handle true true true (gs "transaction-service") envTransportFail
        (toClosed 0)).response.status = 503 ∧
    (handle true true true (gs "transaction-service") envTransportFail
        (toClosed 0)).response.body
      ≠ Body.jsonErrorService (gs "Service Unavailable")
          (gs "transaction-service") := by
  refine ⟨by decide, by decide, by decide, by decide⟩

/-- C6 amended: a transport-level failure is answered with status 502 and
the constant JSON body whose error field is Service Unavailable; the body
is a fixed constant independent of the underlying error, so it never
carries the raw transport error text, the target URL, or the logical
service name. -/
theorem transport_failure_response (sc uv be : Bool) (svc msg : List Char)
    (env : Env) (b : Breaker)
    (hout : env.proxyOutcome = ProxyOutcome.transportFailure msg)
    (hcall : (handle sc uv be svc env b).backendCalled = true) :
    (handle sc uv be svc env b).response =
      ⟨502, Body.jsonError (gs "Service Unavailable")⟩ ∧
    doProxyResponse (ProxyOutcome.transportFailure msg) =
      ⟨502, Body.jsonError (gs "Service Unavailable")⟩ := by
  refine ⟨?_, rfl⟩
  unfold handle at hcall ⊢
  cases sc with
  | false => simp [baseResult] at hcall
  | true =>
    cases uv with
    | false => simp [baseResult] at hcall
    | true =>
      cases be with
      | false => simp [baseResult, hout, doProxyResponse]
      | true =>
        simp only [Bool.false_eq_true, if_false, if_true] at hcall ⊢
        cases hp : (attempt b env.now).2 with
        | false => simp [hp, baseResult] at hcall
        | true => simp [hp, baseResult, hout, doProxyResponse]

/-- Witness for `transport_failure_response` at the concrete failing
request. -/
theorem transport_failure_response_witness :
    envTransportFail.proxyOutcome
        = ProxyOutcome.transportFailure (gs "connection refused") ∧
    (handle true true true (gs "transaction-service") envTransportFail
        (toClosed 0)).response =
      ⟨502, Body.jsonError (gs "Service Unavailable")⟩ :=
  ⟨rfl,
    (transport_failure_response true true true (gs "transaction-service")
      (gs "connection refused") envTransportFail (toClosed 0) rfl
      (by decide)).1⟩

/-- C5: the breaker is given gobreaker's default success predicate over
`doProxy`'s returned error, which is set only by the reverse proxy's
ErrorHandler: a backend response with any HTTP status (4xx and 5xx
included) is recorded as a success, and a transport-level failure is
recorded as a failure; whenever `handle` makes the outbound call through
the breaker, exactly that classification is reported. -/
theorem breaker_outcome_classification :
    (∀ s : Nat, reportedSuccess (ProxyOutcome.backendResponse s) = true) ∧
    (∀ m : List Char, reportedSuccess (ProxyOutcome.transportFailure m) = false) ∧
    (∀ svc : List Char, ∀ env : Env, ∀ b : Breaker,
      (handle true true true svc env b).backendCalled = true →
      (handle true true true svc env b).reported
        = some (reportedSuccess env.proxyOutcome)) := by
  refine ⟨fun _ => rfl, fun _ => rfl, fun svc env b hcall => ?_⟩
  unfold handle at hcall ⊢
  simp only [Bool.false_eq_true, if_false, if_true] at hcall ⊢
  cases hp : (attempt b env.now).2 with
  | false => simp [hp, baseResult] at hcall
  | true => simp [hp, baseResult]

/-- Witness for `breaker_outcome_classification`: a backend 500 is
reported as a success. -/
theorem breaker_outcome_classification_witness :
    (handle true true true (gs "transaction-service")
        ⟨true, true, false, true, some 1, 10,
          ProxyOutcome.backendResponse 500, 0⟩ (toClosed 0)).backendCalled
      = true ∧
    (handle true true true (gs "transaction-service")
        ⟨true, true, false, true, some 1, 10,
          ProxyOutcome.backendResponse 500, 0⟩ (toClosed 0)).reported
      = some (reportedSuccess (ProxyOutcome.backendResponse 500)) :=
  ⟨by decide,
    breaker_outcome_classification.2.2 (gs "transaction-service")
      ⟨true, true, false, true, some 1, 10,
        ProxyOutcome.backendResponse 500, 0⟩ (toClosed 0) (by decide)⟩

/-- C3: from Closed with a clean consecutive-failure count, five failure
reports inside the current rolling interval trip the breaker to Open; and
any success report while Closed (inside the interval) leaves the breaker
Closed and resets the consecutive-failure count to zero. -/
theorem breaker_trip_after_five_failures (b : Breaker) (t1 t2 t3 t4 t5 : Nat)
    (hs : b.state = BState.closed) (hf : b.consecFailures = 0)
    (h1 : t1 ≤ b.intervalStart + interval)
    (h2 : t2 ≤ b.intervalStart + interval)
    (h3 : t3 ≤ b.intervalStart + interval)
    (h4 : t4 ≤ b.intervalStart + interval)
    (h5 : t5 ≤ b.intervalStart + interval) :
    (report (report (report (report (report b t1 false) t2 false) t3 false)
        t4 false) t5 false).state = BState.opn ∧
    (∀ b' : Breaker, ∀ now : Nat, b'.state = BState.closed →
      now ≤ b'.intervalStart + interval →
      (report b' now true).state = BState.closed ∧
      (report b' now true).consecFailures = 0) := by
  constructor
  · obtain ⟨st, cf, cs, rq, oa, iv⟩ := b
    simp only at hs hf h1 h2 h3 h4 h5
    subst hs; subst hf
    have n1 : ¬ (iv + interval < t1) := Nat.not_lt.mpr h1
    have n2 : ¬ (iv + interval < t2) := Nat.not_lt.mpr h2
    have n3 : ¬ (iv + interval < t3) := Nat.not_lt.mpr h3
    have n4 : ¬ (iv + interval < t4) := Nat.not_lt.mpr h4
    have n5 : ¬ (iv + interval < t5) := Nat.not_lt.mpr h5
    simp [report, resolveTime, toOpen, failureThreshold,
      n1, n2, n3, n4, n5]
  · intro b' now hs' hn
    obtain ⟨st, cf, cs, rq, oa, iv⟩ := b'
    simp only at hs' hn
    subst hs'
    have n : ¬ (iv + interval < now) := Nat.not_lt.mpr hn
    constructor <;> simp [report, resolveTime, n]

/-- Witness for `breaker_trip_after_five_failures`: a fresh Closed breaker
is Open after five failures at times 1..5. -/
theorem breaker_trip_after_five_failures_witness :
    (toClosed 0).state = BState.closed ∧
    (report (report (report (report (report (toClosed 0) 1 false) 2 false)
        3 false) 4 false) 5 false).state = BState.opn :=
  ⟨rfl,
    (breaker_trip_after_five_failures (toClosed 0) 1 2 3 4 5 rfl rfl
      (by decide) (by decide) (by decide) (by decide) (by decide)).1⟩

/-- C4: while Open, every attempt up to the 30-second cool-down is
rejected with the breaker left Open; the first attempt after the
cool-down is permitted and moves the breaker to HalfOpen with one probe
slot taken; in HalfOpen an attempt is permitted exactly while fewer than
5 probe slots are taken; a single failure report in HalfOpen returns the
breaker to Open with a fresh cool-down anchored at the report time; five
consecutive success reports in HalfOpen close the breaker; and a rejected
attempt in `handle` answers 503 without an outbound backend call. -/
theorem breaker_open_halfopen_cycle :
    (∀ b : Breaker, ∀ now : Nat, b.state = BState.opn →
      now ≤ b.openedAt + cooldown → attempt b now = (b, false)) ∧
    (∀ b : Breaker, ∀ now : Nat, b.state = BState.opn →
      b.openedAt + cooldown < now →
      (attempt b now).2 = true ∧
      (attempt b now).1.state = BState.halfOpen ∧
      (attempt b now).1.requests = 1) ∧
    (∀ b : Breaker, ∀ now : Nat, b.state = BState.halfOpen →
      ((attempt b now).2 = true ↔ b.requests < probeLimit)) ∧
    (∀ b : Breaker, ∀ now : Nat, b.state = BState.halfOpen →
      report b now false = toOpen now) ∧
    (∀ b : Breaker, ∀ now : Nat, b.state = BState.halfOpen →
      b.consecSuccesses = 0 →
      (reportSuccesses b now 5).state = BState.closed) ∧
    (∀ svc : List Char, ∀ env : Env, ∀ b : Breaker, b.state = BState.opn →
      env.now ≤ b.openedAt + cooldown →
      (handle true true true svc env b).backendCalled = false ∧
      (handle true true true svc env b).response.status = 503) := by
  have rejected : ∀ b : Breaker, ∀ now : Nat, b.state = BState.opn →
      now ≤ b.openedAt + cooldown → attempt b now = (b, false) := by
    intro b now hs hle
    obtain ⟨st, cf, cs, rq, oa, iv⟩ := b
    simp only at hs hle
    subst hs
    have n : ¬ (oa + cooldown < now) := Nat.not_lt.mpr hle
    simp [attempt, resolveTime, n]
  refine ⟨rejected, ?_, ?_, ?_, ?_, ?_⟩
  · intro b now hs hlt
    obtain ⟨st, cf, cs, rq, oa, iv⟩ := b
    simp only at hs hlt
    subst hs
    simp [attempt, resolveTime, toHalfOpen, hlt, probeLimit]
  · intro b now hs
    obtain ⟨st, cf, cs, rq, oa, iv⟩ := b
    simp only at hs
    subst hs
    by_cases h : (5 : Nat) ≤ rq
    all_goals simp [attempt, resolveTime, probeLimit, h]
    all_goals omega
  · intro b now hs
    obtain ⟨st, cf, cs, rq, oa, iv⟩ := b
    simp only at hs
    subst hs
    simp [report, resolveTime, toOpen]
  · intro b now hs hcs
    obtain ⟨st, cf, cs, rq, oa, iv⟩ := b
    simp only at hs hcs
    subst hs; subst hcs
    simp [reportSuccesses, report, resolveTime, toClosed, probeLimit]
  · intro svc env b hs hle
    have ha := rejected b env.now hs hle
    unfold handle
    simp only [Bool.false_eq_true, if_false, if_true]
    simp [ha, baseResult]

/-- Witness for `breaker_open_halfopen_cycle` at a breaker opened at time
100: rejected at 130, permitted and HalfOpen at 131. -/
theorem breaker_open_halfopen_cycle_witness :
    attempt (toOpen 100) 130 = (toOpen 100, false) ∧
    (attempt (toOpen 100) 131).2 = true ∧
    (attempt (toOpen 100) 131).1.state = BState.halfOpen ∧
    report (toHalfOpen (toOpen 100)) 131 false = toOpen 131 ∧
    (reportSuccesses (toHalfOpen (toOpen 100)) 131 5).state = BState.closed :=
  ⟨breaker_open_halfopen_cycle.1 (toOpen 100) 130 rfl (by decide),
    (breaker_open_halfopen_cycle.2.1 (toOpen 100) 131 rfl (by decide)).1,
    (breaker_open_halfopen_cycle.2.1 (toOpen 100) 131 rfl (by decide)).2.1,
    breaker_open_halfopen_cycle.2.2.2.1 (toHalfOpen (toOpen 100)) 131 rfl,
    breaker_open_halfopen_cycle.2.2.2.2.1 (toHalfOpen (toOpen 100)) 131 rfl rfl⟩

/-- The decisions produced by a run of same-key requests whose counter
stands at `c` with expiry `exp`: the k-th request sees count `c + k`. -/
def decisionsFrom (cfg : RateLimitConfig) (c : Int) (exp : Nat) :
    List Nat → List CheckDecision
  | [] => []
  | u :: us =>
    checkLimit cfg (some (c + 1)) ((exp : Int) - (u : Int)) ::
      decisionsFrom cfg (c + 1) exp us

lemma storeSet_same (s : CounterStore) (key : List Char) (v : Int × Nat) :
    storeSet s key v key = some v := by
  simp [storeSet]

lemma runSeq_length (cfg : RateLimitConfig) (key : List Char) :
    ∀ (ts : List Nat) (s : CounterStore),
      (runSeq cfg key s ts).1.length = ts.length := by
  intro ts
  induction ts with
  | nil => intro s; rfl
  | cons u us ih => intro s; simp [runSeq, ih]

lemma decisionsFrom_length (cfg : RateLimitConfig) :
    ∀ (ts : List Nat) (c : Int) (exp : Nat),
      (decisionsFrom cfg c exp ts).length = ts.length := by
  intro ts
  induction ts with
  | nil => intro c exp; rfl
  | cons u us ih => intro c exp; simp [decisionsFrom, ih]

/-- While the counter is live for every request time, a run of requests
produces exactly the decisions of `decisionsFrom`. -/
lemma runSeq_live (cfg : RateLimitConfig) (key : List Char) :
    ∀ (ts : List Nat) (s : CounterStore) (c : Int) (exp : Nat),
      s key = some (c, exp) → (∀ u ∈ ts, u < exp) →
      (runSeq cfg key s ts).1 = decisionsFrom cfg c exp ts := by
  intro ts
  induction ts with
  | nil => intro s c exp _ _; rfl
  | cons u us ih =>
    intro s c exp hk hlt
    have hu : u < exp := hlt u (by simp)
    have hstep : processRequest cfg key s u
        = (checkLimit cfg (some (c + 1)) ((exp : Int) - (u : Int)),
            storeSet s key (c + 1, exp)) := by
      unfold processRequest incrementWithExpiry ttlLookup
      simp [hk, hu, storeSet_same]
    simp only [runSeq, hstep, decisionsFrom]
    rw [ih (storeSet s key (c + 1, exp)) (c + 1) exp (storeSet_same s key _)
      (fun v hv => hlt v (List.mem_cons_of_mem u hv))]

lemma checkLimit_some (cfg : RateLimitConfig) (count ttl : Int) :
    checkLimit cfg (some count) ttl
      = if cfg.limit < count then
          CheckDecision.deny (max 0 (cfg.limit - count))
            (if ttl ≤ 0 then (cfg.window : Int) else ttl)
        else CheckDecision.allow (max 0 (cfg.limit - count)) := rfl

lemma decisionsFrom_get? (cfg : RateLimitConfig) :
    ∀ (ts : List Nat) (c : Int) (exp : Nat) (n : Nat),
      (decisionsFrom cfg c exp ts).get? n
        = (ts.get? n).map (fun (u : Nat) =>
            checkLimit cfg (some (c + 1 + (n : Int)))
              ((exp : Int) - (u : Int))) := by
  intro ts
  induction ts with
  | nil => intro c exp n; simp [decisionsFrom]
  | cons u us ih =>
    intro c exp n
    cases n with
    | zero => simp [decisionsFrom]
    | succ m =>
      simp only [decisionsFrom, List.get?_cons_succ]
      rw [ih (c + 1) exp m]
      have harg : c + 1 + 1 + (m : Int) = c + 1 + ((m : Nat) + 1 : Nat) := by
        push_cast; ring
      rw [harg]

/-- C1: in a same-key run starting from an empty counter, with every
later request arriving before the window started at the first request
expires, the request of ordinal N = n+1 is allowed with
X-RateLimit-Remaining exactly Q - N when N ≤ Q, and is denied when
N > Q.  An allowed decision runs the wrapped handler with the headers set;
a denied decision answers 429, makes no backend call, leaves the breaker
untouched, and ignores the wrapped handler entirely. -/
theorem ratelimit_fixed_window_sequence (cfg : RateLimitConfig)
    (key : List Char) (t : Nat) (ts : List Nat)
    (hW : 0 < cfg.window) (hts : ∀ u ∈ ts, u < t + cfg.window)
    (n : Nat) (hn : n < (t :: ts).length) :
    ((runSeq cfg key emptyStore (t :: ts)).1.get? n
      = some (if (n : Int) + 1 ≤ cfg.limit
        then CheckDecision.allow (cfg.limit - ((n : Int) + 1))
        else CheckDecision.deny 0
          (((t : Int) + (cfg.window : Int))
            - (((t :: ts).get ⟨n, hn⟩ : Nat) : Int)))) ∧
    (∀ r : Int, ∀ b : Breaker, ∀ next : PipeResult,
      applyDecision cfg (CheckDecision.allow r) b next
        = { next with storeConsulted := true, xRateHeadersSet := true,
                      limitHeader := cfg.limit, remainingHeader := r }) ∧
    (∀ r ra : Int, ∀ b : Breaker, ∀ next next' : PipeResult,
      (applyDecision cfg (CheckDecision.deny r ra) b next).response.status
          = 429 ∧
      (applyDecision cfg (CheckDecision.deny r ra) b next).backendCalled
          = false ∧
      (applyDecision cfg (CheckDecision.deny r ra) b next).breaker = b ∧
      applyDecision cfg (CheckDecision.deny r ra) b next
        = applyDecision cfg (CheckDecision.deny r ra) b next') := by
  refine ⟨?_, fun r b next => rfl, fun r ra b next next' => ⟨rfl, rfl, rfl, rfl⟩⟩
  have hwne : cfg.window ≠ 0 := Nat.pos_iff_ne_zero.mp hW
  have htl : t < t + cfg.window := Nat.lt_add_of_pos_right hW
  have hstep : processRequest cfg key emptyStore t
      = (checkLimit cfg (some 1)
          (((t + cfg.window : Nat) : Int) - (t : Int)),
          storeSet emptyStore key (1, t + cfg.window)) := by
    unfold processRequest incrementWithExpiry ttlLookup
    simp [emptyStore, hwne, htl, storeSet_same]
  have hrun : (runSeq cfg key emptyStore (t :: ts)).1
      = decisionsFrom cfg 0 (t + cfg.window) (t :: ts) := by
    simp only [runSeq, hstep, decisionsFrom]
    rw [runSeq_live cfg key ts (storeSet emptyStore key (1, t + cfg.window))
      1 (t + cfg.window) (storeSet_same _ _ _) hts]
    norm_num
  have htget : (t :: ts).get? n = some ((t :: ts).get ⟨n, hn⟩) :=
    List.get?_eq_get hn
  rw [hrun, decisionsFrom_get? cfg (t :: ts) 0 (t + cfg.window) n, htget]
  have htn : ((t :: ts).get ⟨n, hn⟩ : Nat) < t + cfg.window := by
    have hmem : ((t :: ts).get ⟨n, hn⟩ : Nat) ∈ t :: ts :=
      List.get_mem _ _ _
    rcases List.mem_cons.mp hmem with h | h
    · omega
    · exact hts _ h
  rw [Option.map_some']
  rw [show (0 : Int) + 1 + (n : Int) = (n : Int) + 1 by ring, checkLimit_some]
  by_cases hc : cfg.limit < (n : Int) + 1
  · rw [if_pos hc,
      if_neg (show ¬ ((n : Int) + 1 ≤ cfg.limit) by omega),
      if_neg (show ¬ (((t + cfg.window : Nat) : Int)
        - (((t :: ts).get ⟨n, hn⟩ : Nat) : Int) ≤ 0) by omega)]
    refine congrArg some ?_
    have hmax : max 0 (cfg.limit - ((n : Int) + 1)) = 0 := by omega
    have hcast : ((t + cfg.window : Nat) : Int)
        = (t : Int) + (cfg.window : Int) := by push_cast; ring
    rw [hmax, hcast]
  · rw [if_neg hc, if_pos (show (n : Int) + 1 ≤ cfg.limit by omega)]
    refine congrArg some ?_
    have hmax : max 0 (cfg.limit - ((n : Int) + 1))
        = cfg.limit - ((n : Int) + 1) := by omega
    rw [hmax]

/-- Witness for `ratelimit_fixed_window_sequence`: under the auth policy
(quota 5, window 60s) with requests at times 0..5, the sixth request
(ordinal 6 > 5) is denied with retry-after 55. -/
theorem ratelimit_fixed_window_sequence_witness :
    0 < authLimit.window ∧
    (runSeq authLimit (gs "k") emptyStore [0, 1, 2, 3, 4, 5]).1.get? 5
      = some (CheckDecision.deny 0 55) := by
  refine ⟨by decide, ?_⟩
  have h := (ratelimit_fixed_window_sequence authLimit (gs "k") 0
    [1, 2, 3, 4, 5] (by decide) (by decide) 5 (by decide)).1
  norm_num [List.get, authLimit] at h
  rw [List.get?_eq_getElem?]
  exact h

/-! ## Pipeline composition lemmas -/

/-- All four checks of `ValidateToken` pass for this request. -/
def authPassed (redisPresent : Bool) (env : Env) : Prop :=
  env.hasAuthHeader = true ∧ env.authFormatOk = true ∧
  (redisPresent && env.blacklisted) = false ∧ env.tokenValid = true

instance (rp : Bool) (env : Env) : Decidable (authPassed rp env) := by
  unfold authPassed
  infer_instance

lemma validateToken_pass (rp : Bool) (next : Env → Breaker → PipeResult)
    (env : Env) (b : Breaker) (h : authPassed rp env) :
    validateToken rp next env b = { next env b with blacklistChecked := rp } := by
  obtain ⟨h1, h2, h3, h4⟩ := h
  unfold validateToken
  simp [h1, h2, h3, h4]

lemma validateToken_deny (rp : Bool) (next : Env → Breaker → PipeResult)
    (env : Env) (b : Breaker) (h : ¬ authPassed rp env) :
    (validateToken rp next env b).response.status = 401 ∧
    (validateToken rp next env b).storeConsulted = false ∧
    (validateToken rp next env b).xRateHeadersSet = false ∧
    (validateToken rp next env b).backendCalled = false ∧
    (validateToken rp next env b).breaker = b := by
  obtain ⟨ah, fo, bl, tv, inc, ttl, po, now⟩ := env
  unfold validateToken
  cases ah with
  | false => simp [baseResult]
  | true =>
    cases fo with
    | false => simp [baseResult]
    | true =>
      cases hbl : rp && bl with
      | true => simp [hbl, baseResult]
      | false =>
        cases tv with
        | false => simp [hbl, baseResult]
        | true => exact absurd ⟨rfl, rfl, hbl, rfl⟩ h

lemma rateLimitStage_failOpen_eq (cfg : RateLimitConfig) (ttl : Int)
    (b : Breaker) (next : PipeResult) :
    rateLimitStage cfg none ttl b next = { next with storeConsulted := true } :=
  rfl

lemma rateLimitStage_allow_eq (cfg : RateLimitConfig) (c ttl : Int)
    (b : Breaker) (next : PipeResult) (h : ¬ cfg.limit < c) :
    rateLimitStage cfg (some c) ttl b next
      = { next with storeConsulted := true, xRateHeadersSet := true,
                    limitHeader := cfg.limit,
                    remainingHeader := max 0 (cfg.limit - c) } := by
  unfold rateLimitStage applyDecision
  rw [checkLimit_some, if_neg h]

lemma rateLimitStage_deny_eq (cfg : RateLimitConfig) (c ttl : Int)
    (b : Breaker) (next : PipeResult) (h : cfg.limit < c) :
    rateLimitStage cfg (some c) ttl b next
      = { baseResult
            ⟨429, Body.jsonRateLimited (gs "Rate limit exceeded")
                (if ttl ≤ 0 then (cfg.window : Int) else ttl)⟩ b with
          storeConsulted := true, xRateHeadersSet := true,
          limitHeader := cfg.limit,
          remainingHeader := max 0 (cfg.limit - c),
          retryAfterHeader :=
            some (if ttl ≤ 0 then (cfg.window : Int) else ttl) } := by
  unfold rateLimitStage applyDecision
  rw [checkLimit_some, if_pos h]

lemma handle_backendCalled_iff (sc uv be : Bool) (svc : List Char)
    (env : Env) (b : Breaker) :
    (handle sc uv be svc env b).backendCalled = true ↔
      (sc = true ∧ uv = true ∧
        (be = true → (attempt b env.now).2 = true)) := by
  unfold handle
  cases sc with
  | false => simp [baseResult]
  | true =>
    cases uv with
    | false => simp [baseResult]
    | true =>
      cases be with
      | false => simp [baseResult]
      | true =>
        cases hp : (attempt b env.now).2 with
        | false => simp [hp, baseResult]
        | true => simp [hp, baseResult]

lemma handle_reject (svc : List Char) (env : Env) (b : Breaker)
    (hp : (attempt b env.now).2 = false) :
    (handle true true true svc env b).response.status = 503 ∧
    (handle true true true svc env b).backendCalled = false := by
  unfold handle
  simp [hp, baseResult]

lemma handle_no_ratelimit_fields (sc uv be : Bool) (svc : List Char)
    (env : Env) (b : Breaker) :
    (handle sc uv be svc env b).storeConsulted = false ∧
    (handle sc uv be svc env b).xRateHeadersSet = false ∧
    (∀ e : List Char, ∀ ra : Int,
      (handle sc uv be svc env b).response.body ≠ Body.jsonRateLimited e ra) := by
  unfold handle
  cases sc with
  | false => simp [baseResult]
  | true =>
    cases uv with
    | false => simp [baseResult]
    | true =>
      cases be with
      | false =>
        cases hpo : env.proxyOutcome with
        | backendResponse s => simp [baseResult, hpo, doProxyResponse]
        | transportFailure m => simp [baseResult, hpo, doProxyResponse]
      | true =>
        cases hp : (attempt b env.now).2 with
        | false => simp [hp, baseResult]
        | true =>
          cases hpo : env.proxyOutcome with
          | backendResponse s => simp [hp, baseResult, hpo, doProxyResponse]
          | transportFailure m => simp [hp, baseResult, hpo, doProxyResponse]

/-- C7: the stages run in the source order authentication, rate limiting,
circuit breaking, forwarding, and a denial at any stage short-circuits
the rest: an authentication failure answers 401 with the counting store
never consulted and no backend call; a quota denial answers 429 with no
backend call and the breaker untouched; a rejected breaker attempt
answers 503 with no backend call; and a backend call implies the
authentication passed, the service was configured with a valid URL, the
rate limiter allowed the request, and the breaker permitted the attempt —
on the protected chains and on the /api/auth chain alike. -/
theorem pipeline_stage_order :
    (∀ rp sc uv be : Bool, ∀ cfg : RateLimitConfig, ∀ svc : List Char,
      ∀ env : Env, ∀ b : Breaker, ¬ authPassed rp env →
      (protectedChain rp sc uv be cfg svc env b).response.status = 401 ∧
      (protectedChain rp sc uv be cfg svc env b).storeConsulted = false ∧
      (protectedChain rp sc uv be cfg svc env b).backendCalled = false ∧
      (protectedChain rp sc uv be cfg svc env b).breaker = b) ∧
    (∀ sc uv be : Bool, ∀ cfg : RateLimitConfig, ∀ svc : List Char,
      ∀ env : Env, ∀ b : Breaker, ∀ c : Int, authPassed true env →
      env.incr = some c → cfg.limit < c →
      (protectedChain true sc uv be cfg svc env b).response.status = 429 ∧
      (protectedChain true sc uv be cfg svc env b).backendCalled = false ∧
      (protectedChain true sc uv be cfg svc env b).breaker = b) ∧
    (∀ rp : Bool, ∀ cfg : RateLimitConfig, ∀ svc : List Char,
      ∀ env : Env, ∀ b : Breaker, authPassed rp env →
      (∀ c : Int, env.incr = some c → c ≤ cfg.limit) →
      (attempt b env.now).2 = false →
      (protectedChain rp true true true cfg svc env b).response.status = 503 ∧
      (protectedChain rp true true true cfg svc env b).backendCalled = false) ∧
    (∀ rp sc uv be : Bool, ∀ cfg : RateLimitConfig, ∀ svc : List Char,
      ∀ env : Env, ∀ b : Breaker,
      (protectedChain rp sc uv be cfg svc env b).backendCalled = true →
      authPassed rp env ∧ sc = true ∧ uv = true ∧
      (rp = true → ∀ c : Int, env.incr = some c → c ≤ cfg.limit) ∧
      (be = true → (attempt b env.now).2 = true)) ∧
    (∀ rp sc uv be : Bool, ∀ env : Env, ∀ b : Breaker,
      (authChain rp sc uv be env b).backendCalled = true →
      sc = true ∧ uv = true ∧
      (rp = true → ∀ c : Int, env.incr = some c → c ≤ authLimit.limit) ∧
      (be = true → (attempt b env.now).2 = true)) ∧
    (∀ sc uv be : Bool, ∀ env : Env, ∀ b : Breaker, ∀ c : Int,
      env.incr = some c → authLimit.limit < c →
      (authChain true sc uv be env b).response.status = 429 ∧
      (authChain true sc uv be env b).backendCalled = false) := by
  refine ⟨?_, ?_, ?_, ?_, ?_, ?_⟩
  · intro rp sc uv be cfg svc env b h
    unfold protectedChain
    exact ⟨(validateToken_deny _ _ _ _ h).1, (validateToken_deny _ _ _ _ h).2.1,
      (validateToken_deny _ _ _ _ h).2.2.2.1, (validateToken_deny _ _ _ _ h).2.2.2.2⟩
  · intro sc uv be cfg svc env b c hap hinc hlim
    unfold protectedChain
    rw [validateToken_pass true _ env b hap]
    simp only [if_true, Bool.true_eq_false]
    rw [hinc, rateLimitStage_deny_eq cfg c env.ttl b _ hlim]
    simp [baseResult]
  · intro rp cfg svc env b hap hallow hp
    unfold protectedChain
    rw [validateToken_pass rp _ env b hap]
    simp only []
    have hr := handle_reject svc env b hp
    cases rp with
    | false => simpa using hr
    | true =>
      cases hinc : env.incr with
      | none =>
        rw [rateLimitStage_failOpen_eq]
        simpa using hr
      | some c =>
        have hc : ¬ cfg.limit < c := by
          have := hallow c hinc
          omega
        rw [rateLimitStage_allow_eq cfg c env.ttl b _ hc]
        simpa using hr
  · intro rp sc uv be cfg svc env b hbc
    by_cases hap : authPassed rp env
    · refine ⟨hap, ?_⟩
      rw [protectedChain, validateToken_pass rp _ env b hap] at hbc
      simp only [] at hbc
      cases rp with
      | false =>
        simp only [Bool.false_eq_true, if_false] at hbc
        have hb2 : (handle sc uv be svc env b).backendCalled = true := by
          simpa using hbc
        obtain ⟨hsc, huv, hbe⟩ := (handle_backendCalled_iff sc uv be svc env b).mp hb2
        exact ⟨hsc, huv, fun hfalse => absurd hfalse (by simp), hbe⟩
      | true =>
        simp only [if_true] at hbc
        cases hinc : env.incr with
        | none =>
          rw [hinc, rateLimitStage_failOpen_eq] at hbc
          have hb2 : (handle sc uv be svc env b).backendCalled = true := by
            simpa using hbc
          obtain ⟨hsc, huv, hbe⟩ :=
            (handle_backendCalled_iff sc uv be svc env b).mp hb2
          refine ⟨hsc, huv, fun _ c hc => ?_, hbe⟩
          simp at hc
        | some c =>
          by_cases hc : cfg.limit < c
          · rw [hinc, rateLimitStage_deny_eq cfg c env.ttl b _ hc] at hbc
            simp [baseResult] at hbc
          · rw [hinc, rateLimitStage_allow_eq cfg c env.ttl b _ hc] at hbc
            have hb2 : (handle sc uv be svc env b).backendCalled = true := by
              simpa using hbc
            obtain ⟨hsc, huv, hbe⟩ :=
              (handle_backendCalled_iff sc uv be svc env b).mp hb2
            refine ⟨hsc, huv, fun _ c2 hc2 => ?_, hbe⟩
            simp only [Option.some.injEq] at hc2
            omega
    · exfalso
      rw [protectedChain] at hbc
      rw [(validateToken_deny _ _ _ _ hap).2.2.2.1] at hbc
      cases hbc
  · intro rp sc uv be env b hbc
    unfold authChain at hbc
    cases rp with
    | false =>
      simp only [Bool.false_eq_true, if_false] at hbc
      obtain ⟨hsc, huv, hbe⟩ := (handle_backendCalled_iff sc uv be _ env b).mp hbc
      exact ⟨hsc, huv, fun hfalse => absurd hfalse (by simp), hbe⟩
    | true =>
      simp only [if_true] at hbc
      cases hinc : env.incr with
      | none =>
        rw [hinc, rateLimitStage_failOpen_eq] at hbc
        have hb2 : (handle sc uv be (gs "auth-service") env b).backendCalled
            = true := by simpa using hbc
        obtain ⟨hsc, huv, hbe⟩ :=
          (handle_backendCalled_iff sc uv be _ env b).mp hb2
        refine ⟨hsc, huv, fun _ c hc => ?_, hbe⟩
        simp at hc
      | some c =>
        by_cases hc : authLimit.limit < c
        · rw [hinc, rateLimitStage_deny_eq authLimit c env.ttl b _ hc] at hbc
          simp [baseResult] at hbc
        · rw [hinc, rateLimitStage_allow_eq authLimit c env.ttl b _ hc] at hbc
          have hb2 : (handle sc uv be (gs "auth-service") env b).backendCalled
              = true := by simpa using hbc
          obtain ⟨hsc, huv, hbe⟩ :=
            (handle_backendCalled_iff sc uv be _ env b).mp hb2
          refine ⟨hsc, huv, fun _ c2 hc2 => ?_, hbe⟩
          simp only [Option.some.injEq] at hc2
          omega
  · intro sc uv be env b c hinc hlim
    unfold authChain
    simp only [if_true]
    rw [hinc, rateLimitStage_deny_eq authLimit c env.ttl b _ hlim]
    simp [baseResult]

/-- Witness for `pipeline_stage_order`: a request with no Authorization
header on the transfers chain is answered 401 with no store consult and
no backend call. -/
theorem pipeline_stage_order_witness :
    ¬ authPassed true ⟨false, true, false, true, some 1, 10,
        ProxyOutcome.backendResponse 200, 0⟩ ∧
    ((transfersChain true true true true
        ⟨false, true, false, true, some 1, 10,
          ProxyOutcome.backendResponse 200, 0⟩ (toClosed 0)).response.status
      = 401 ∧
    (transfersChain true true true true
        ⟨false, true, false, true, some 1, 10,
          ProxyOutcome.backendResponse 200, 0⟩ (toClosed 0)).storeConsulted
      = false ∧
    (transfersChain true true true true
        ⟨false, true, false, true, some 1, 10,
          ProxyOutcome.backendResponse 200, 0⟩ (toClosed 0)).backendCalled
      = false ∧
    (transfersChain true true true true
        ⟨false, true, false, true, some 1, 10,
          ProxyOutcome.backendResponse 200, 0⟩ (toClosed 0)).breaker
      = toClosed 0) :=
  ⟨by decide,
    pipeline_stage_order.1 true true true true transferLimit
      (gs "transaction-service")
      ⟨false, true, false, true, some 1, 10,
        ProxyOutcome.backendResponse 200, 0⟩ (toClosed 0) (by decide)⟩

/-- C10: when the Redis connection fails at startup the client is nil, so
no rate-limiting middleware is installed on any route group: the
/api/auth chain is exactly the bare proxy handler; on every protected
chain the counting store is never consulted, no X-RateLimit headers are
set, no rate-limited (429) body is ever produced, and the blacklist is
never consulted; and a request passing the remaining token checks goes
straight to the proxy handler even when its token is blacklisted. -/
theorem redis_down_disables_ratelimit_and_blacklist :
    (∀ sc uv be : Bool, ∀ env : Env, ∀ b : Breaker,
      authChain (redisPresentAfterStartup false) sc uv be env b
        = handle sc uv be (gs "auth-service") env b) ∧
    (∀ sc uv be : Bool, ∀ cfg : RateLimitConfig, ∀ svc : List Char,
      ∀ env : Env, ∀ b : Breaker,
      (protectedChain (redisPresentAfterStartup false) sc uv be cfg svc
          env b).storeConsulted = false ∧
      (protectedChain (redisPresentAfterStartup false) sc uv be cfg svc
          env b).xRateHeadersSet = false ∧
      (protectedChain (redisPresentAfterStartup false) sc uv be cfg svc
          env b).blacklistChecked = false ∧
      (∀ e : List Char, ∀ ra : Int,
        (protectedChain (redisPresentAfterStartup false) sc uv be cfg svc
            env b).response.body ≠ Body.jsonRateLimited e ra)) ∧
    (∀ sc uv be : Bool, ∀ cfg : RateLimitConfig, ∀ svc : List Char,
      ∀ env : Env, ∀ b : Breaker, env.hasAuthHeader = true →
      env.authFormatOk = true → env.tokenValid = true →
      protectedChain (redisPresentAfterStartup false) sc uv be cfg svc env b
        = { handle sc uv be svc env b with blacklistChecked := false }) := by
  have hpass : ∀ sc uv be : Bool, ∀ cfg : RateLimitConfig, ∀ svc : List Char,
      ∀ env : Env, ∀ b : Breaker, env.hasAuthHeader = true →
      env.authFormatOk = true → env.tokenValid = true →
      protectedChain (redisPresentAfterStartup false) sc uv be cfg svc env b
        = { handle sc uv be svc env b with blacklistChecked := false } := by
    intro sc uv be cfg svc env b h1 h2 h4
    unfold protectedChain redisPresentAfterStartup
    rw [validateToken_pass false _ env b ⟨h1, h2, by simp, h4⟩]
    simp
  refine ⟨fun sc uv be env b => rfl, ?_, hpass⟩
  intro sc uv be cfg svc env b
  by_cases hap : authPassed false env
  · obtain ⟨h1, h2, _, h4⟩ := hap
    rw [hpass sc uv be cfg svc env b h1 h2 h4]
    have hh := handle_no_ratelimit_fields sc uv be svc env b
    exact ⟨by simpa using hh.1, by simpa using hh.2.1, by simp,
      fun e ra => by simpa using hh.2.2 e ra⟩
  · have hd := validateToken_deny (redisPresentAfterStartup false)
      (fun env b =>
        let next := handle sc uv be svc env b
        if redisPresentAfterStartup false then
          rateLimitStage cfg env.incr env.ttl b next
        else next) env b hap
    refine ⟨hd.2.1, hd.2.2.1, ?_, ?_⟩
    · obtain ⟨ah, fo, bl, tv, inc, ttl, po, now⟩ := env
      unfold protectedChain redisPresentAfterStartup validateToken
      cases ah with
      | false => simp [baseResult]
      | true =>
        cases fo with
        | false => simp [baseResult]
        | true =>
          cases tv with
          | false => simp [baseResult]
          | true => exact absurd ⟨rfl, rfl, by simp, rfl⟩ hap
    · intro e ra
      obtain ⟨ah, fo, bl, tv, inc, ttl, po, now⟩ := env
      unfold protectedChain redisPresentAfterStartup validateToken
      cases ah with
      | false => simp [baseResult]
      | true =>
        cases fo with
        | false => simp [baseResult]
        | true =>
          cases tv with
          | false => simp [baseResult]
          | true => exact absurd ⟨rfl, rfl, by simp, rfl⟩ hap

/-- Witness for `redis_down_disables_ratelimit_and_blacklist`: with Redis
down, a request whose token is blacklisted still reaches the proxy
handler on the transfers chain, with the blacklist never consulted. -/
theorem redis_down_disables_ratelimit_and_blacklist_witness :
    protectedChain (redisPresentAfterStartup false) true true false
        transferLimit (gs "transaction-service")
        ⟨true, true, true, true, some 1000000, 10,
          ProxyOutcome.backendResponse 200, 0⟩ (toClosed 0)
      = { handle true true false (gs "transaction-service")
            ⟨true, true, true, true, some 1000000, 10,
              ProxyOutcome.backendResponse 200, 0⟩ (toClosed 0) with
          blacklistChecked := false } :=
  redis_down_disables_ratelimit_and_blacklist.2.2 true true false
    transferLimit (gs "transaction-service")
    ⟨true, true, true, true, some 1000000, 10,
      ProxyOutcome.backendResponse 200, 0⟩ (toClosed 0) rfl rfl rfl

end Gateway
